import Mathlib

/-!
# Verification of the chat session store

A shallow embedding of the session-store component of this repository:
the React hook `useChatGPT` (src/examples/react/README.md, the embedded
`useChatGPT.ts` source) together with the structurally identical Angular
`ChatService` (src/examples/scala/build.sbt, the embedded `chat.service.ts`
source).  React state setters (`setSessions`, `setCurrentSession`,
`setIsLoading`, `setError`) are modelled by explicit state passing on a
`StoreState` record, applied in program order; the functional updater form
`setX(prev => ...)` reads the state produced by the previous setter, while a
plain identifier such as `currentSession` inside a callback reads the value
captured by the closure at call entry, and the embedding mirrors that
distinction.  `Date` values are epoch milliseconds (`Nat`); every call to
`new Date()` / `Date.now()` and every generated id is threaded in as an
explicit parameter, since they are environment inputs.  The browser JSON
codec (`JSON.parse` / `JSON.stringify`) and ISO-8601 date rendering are
platform primitives, not repository code; they are modelled at the level of
parse trees (`Json`) with a faithful injective date rendering.
-/

/-- `role` field of a `ChatMessage` (`'user' | 'assistant' | 'system'`). -/
inductive Role where
  | user
  | assistant
  | system
deriving Repr, DecidableEq

/-- The string a `Role` denotes in the TypeScript source. -/
def Role.str : Role → String
  | .user => "user"
  | .assistant => "assistant"
  | .system => "system"

/-- Inverse of `Role.str`, used when re-typing revived JSON data. -/
def Role.ofStr : String → Option Role
  | "user" => some .user
  | "assistant" => some .assistant
  | "system" => some .system
  | _ => none

/-- `role.toUpperCase()` on the three role strings. -/
def Role.upper : Role → String
  | .user => "USER"
  | .assistant => "ASSISTANT"
  | .system => "SYSTEM"

/-- `interface ChatMessage` — timestamps are epoch milliseconds. -/
structure ChatMessage where
  id : String
  role : Role
  content : String
  timestamp : Nat
  tokens : Option Nat
deriving Repr, DecidableEq

/-- `interface ChatSession`. -/
structure ChatSession where
  id : String
  title : String
  messages : List ChatMessage
  createdAt : Nat
  updatedAt : Nat
deriving Repr, DecidableEq

/-- The mutable state of one `useChatGPT` hook instance: the four React
state cells plus the abort plumbing.  `abortController = some g` models
`abortControllerRef.current` holding the controller of generation `g`;
`abortedGens` records every generation on which `.abort()` was called;
`nextGen` models allocation of fresh `AbortController`s. -/
structure StoreState where
  currentSession : Option ChatSession
  sessions : List ChatSession
  isLoading : Bool
  error : Option String
  abortController : Option Nat
  nextGen : Nat
  abortedGens : List Nat
deriving Repr, DecidableEq

/-- Hook state before any effect has run: all cells at their `useState`
initial values. -/
def initialStoreState : StoreState :=
  { currentSession := none
    sessions := []
    isLoading := false
    error := none
    abortController := none
    nextGen := 0
    abortedGens := [] }

/-- JS `content.trim()`: strip leading and trailing whitespace.  (The
source never calls it; the specification's claims quantify over contents
by their trimmed value, so the theorems need the notion.) -/
def jsTrim (s : String) : String :=
  ⟨((s.data.dropWhile Char.isWhitespace).reverse.dropWhile Char.isWhitespace).reverse⟩

/-- JS `a || b` on an optional string: `undefined` and `''` are falsy. -/
def jsOrStr (a : Option String) (b : String) : String :=
  match a with
  | some s => if s == "" then b else s
  | none => b

/-- JS `currentSession?.id === i` (false when the reference is null). -/
def idMatches (c : Option ChatSession) (i : String) : Bool :=
  match c with
  | some s => s.id == i
  | none => false

/-- `createNewSession(title?)`: builds a fresh session, prepends it to the
session list and makes it current.  `sid` is the generated id, `dateStr`
the locale-rendered date used in the default title, `now` the clock. -/
def createNewSession (st : StoreState) (titleOpt : Option String)
    (sid dateStr : String) (now : Nat) : StoreState × ChatSession :=
  let session : ChatSession :=
    { id := sid
      title := jsOrStr titleOpt ("Chat " ++ dateStr)
      messages := []
      createdAt := now
      updatedAt := now }
  ({ st with sessions := session :: st.sessions, currentSession := some session },
   session)

/-- `selectSession(sessionId)`: activates the session when the id exists
(clearing the error), otherwise does nothing. -/
def selectSession (st : StoreState) (sessionId : String) : StoreState :=
  match st.sessions.find? (fun s => s.id == sessionId) with
  | some session => { st with currentSession := some session, error := none }
  | none => st

/-- `deleteSession(sessionId)`: removes the session; if it was current, the
second functional update re-reads the filtered list and selects
`prev[0] || null`. -/
def deleteSession (st : StoreState) (sessionId : String) : StoreState :=
  let remaining := st.sessions.filter (fun s => !(s.id == sessionId))
  let st1 := { st with sessions := remaining }
  if idMatches st.currentSession sessionId then
    { st1 with currentSession := remaining.head? }
  else
    st1

/-- `clearSession(sessionId)`: empties the session's messages in place
(bumping `updatedAt` only in the list copy, as the source does), mirrors
the emptying onto `currentSession` when it is the cleared session, and
clears the error state. -/
def clearSession (st : StoreState) (sessionId : String) (now : Nat) : StoreState :=
  let sessions := st.sessions.map fun s =>
    if s.id == sessionId then { s with messages := [], updatedAt := now } else s
  let current :=
    if idMatches st.currentSession sessionId then
      st.currentSession.map (fun c => { c with messages := [] })
    else
      st.currentSession
  { st with sessions := sessions, currentSession := current, error := none }

/-- `(message.tokens || 0)` summed over one session's messages. -/
def sessionTokens (s : ChatSession) : Nat :=
  s.messages.foldl (fun acc m => acc + m.tokens.getD 0) 0

/-- `getTotalTokensUsed(sessionId?)`: sums `tokens || 0` over every message
of the selected session, or of all sessions when no id is given. -/
def getTotalTokensUsed (st : StoreState) (sessionId : Option String) : Nat :=
  let targetSessions : List ChatSession :=
    match sessionId with
    | some i => st.sessions.filter (fun s => s.id == i)
    | none => st.sessions
  targetSessions.foldl (fun total s => total + sessionTokens s) 0

/-- Messages of the first session carrying a given id, if any. -/
def msgsOfId (st : StoreState) (i : String) : Option (List ChatMessage) :=
  (st.sessions.find? (fun (s : ChatSession) => s.id == i)).map ChatSession.messages

/-! ## JSON layer

`JSON.parse` / `JSON.stringify` and `Date` rendering are browser
primitives, not repository code.  Stored and exported texts are modelled by
their parse trees; a text that does not parse is the distinguished
`StoredText.corrupt`.  A `Date` serializes to a decimal string of its
millisecond value — an injective stand-in for the ISO-8601 rendering, whose
exact character shape no repository code inspects. -/

inductive Json where
  | null
  | bool (b : Bool)
  | num (n : Int)
  | str (s : String)
  | arr (elems : List Json)
  | obj (fields : List (String × Json))
deriving Repr

/-- Decimal digit character (`'0'` + d). -/
def digitChar (d : Nat) : Char := Char.ofNat (48 + d)

/-- Serialized form of a `Date`: decimal rendering of its milliseconds. -/
def isoOfMs (t : Nat) : String :=
  if t = 0 then "0" else ⟨((Nat.digits 10 t).map digitChar).reverse⟩

/-- Value of a decimal digit character. -/
def digitVal (c : Char) : Option Nat :=
  if 48 ≤ c.toNat ∧ c.toNat ≤ 57 then some (c.toNat - 48) else none

/-- `.map` under a surrounding try/catch: the first failing element aborts
the whole traversal (models a thrown exception propagating out). -/
def mapOpt (f : α → Option β) : List α → Option (List β)
  | [] => some []
  | a :: l =>
    match f a, mapOpt f l with
    | some b, some bs => some (b :: bs)
    | _, _ => none

/-- Parse a serialized `Date` back to milliseconds (`new Date(s)`). -/
def msOfIso (s : String) : Option Nat :=
  match mapOpt digitVal s.data with
  | some ds => if ds.isEmpty then none else some (Nat.ofDigits 10 ds.reverse)
  | none => none

/-- Field access on a parsed JSON object (`undefined` is `none`). -/
def Json.getField : Json → String → Option Json
  | .obj fields, name => fields.lookup name
  | _, _ => none

def Json.asString : Json → Option String
  | .str s => some s
  | _ => none

/-- `new Date(x)` applied to a revived JSON value. -/
def newDate : Json → Option Nat
  | .str s => msOfIso s
  | .num n => if 0 ≤ n then some n.toNat else none
  | _ => none

/-- `JSON.stringify` image of a `ChatMessage`: fields in declaration order;
an `undefined` optional `tokens` field is dropped. -/
def encodeMessageJson (m : ChatMessage) : Json :=
  .obj ([("id", .str m.id),
         ("role", .str m.role.str),
         ("content", .str m.content),
         ("timestamp", .str (isoOfMs m.timestamp))] ++
        (match m.tokens with
         | some t => [("tokens", .num (t : Int))]
         | none => []))

/-- `JSON.stringify` image of a `ChatSession`. -/
def encodeSessionJson (s : ChatSession) : Json :=
  .obj [("id", .str s.id),
        ("title", .str s.title),
        ("messages", .arr (s.messages.map encodeMessageJson)),
        ("createdAt", .str (isoOfMs s.createdAt)),
        ("updatedAt", .str (isoOfMs s.updatedAt))]

/-- `JSON.stringify(sessions)`. -/
def encodeSessionsJson (ss : List ChatSession) : Json :=
  .arr (ss.map encodeSessionJson)

/-- Per-message step of `loadSessionsFromStorage`'s revival:
`{ ...msg, timestamp: new Date(msg.timestamp) }`, re-typed against the
`ChatMessage` interface. -/
def reviveMessage (j : Json) : Option ChatMessage := do
  let id ← (j.getField "id").bind Json.asString
  let roleStr ← (j.getField "role").bind Json.asString
  let role ← Role.ofStr roleStr
  let content ← (j.getField "content").bind Json.asString
  let timestamp ← (j.getField "timestamp").bind newDate
  let tokens ←
    match j.getField "tokens" with
    | none => some none
    | some (.num n) => if 0 ≤ n then some (some n.toNat) else none
    | some _ => none
  some { id := id, role := role, content := content,
         timestamp := timestamp, tokens := tokens }

/-- Per-session step of `loadSessionsFromStorage`'s revival:
`{ ...session, createdAt: new Date(...), updatedAt: new Date(...),
messages: session.messages.map(...) }`; `.map` on a missing or non-array
`messages` throws, which surfaces here as `none`. -/
def reviveSession (j : Json) : Option ChatSession := do
  let id ← (j.getField "id").bind Json.asString
  let title ← (j.getField "title").bind Json.asString
  let msgsJson ←
    match j.getField "messages" with
    | some (.arr xs) => some xs
    | _ => none
  let messages ← mapOpt reviveMessage msgsJson
  let createdAt ← (j.getField "createdAt").bind newDate
  let updatedAt ← (j.getField "updatedAt").bind newDate
  some { id := id, title := title, messages := messages,
         createdAt := createdAt, updatedAt := updatedAt }

/-- `JSON.parse(stored).map(session => ...)`: `.map` demands an array. -/
def reviveSessions : Json → Option (List ChatSession)
  | .arr xs => mapOpt reviveSession xs
  | _ => none

/-- Content of the `'chat-sessions'` localStorage slot: absent
(`getItem` returned null), unparseable, or a parsed JSON document. -/
inductive StoredText where
  | missing
  | corrupt
  | parsed (doc : Json)
deriving Repr

/-- `loadSessionsFromStorage()`: on parse or revival failure the catch
resets the session list to `[]` and leaves everything else untouched; on
success the revived sessions are installed and, when non-empty, the most
recent one becomes current. -/
def loadSessionsFromStorage (slot : StoredText) (st : StoreState) : StoreState :=
  match slot with
  | .missing => st
  | .corrupt => { st with sessions := [] }
  | .parsed doc =>
    match reviveSessions doc with
    | none => { st with sessions := [] }
    | some parsedSessions =>
      if parsedSessions.length > 0 then
        { st with sessions := parsedSessions,
                  currentSession := parsedSessions.head? }
      else
        { st with sessions := parsedSessions }

/-- Result of one `localStorage.setItem` attempt. -/
inductive WriteOutcome where
  | ok
  | quotaExceeded
  | otherError
deriving Repr, DecidableEq

/-- Result of `saveSessionsToStorage()`: the store state it leaves behind,
the slot content after the call, and how many `setItem` calls it made. -/
structure SaveResult where
  state : StoreState
  storage : StoredText
  attempts : Nat

/-- `saveSessionsToStorage()`: a `QuotaExceededError` truncates the
in-memory list to the 10 most recent sessions and retries once; the retry
failure — like any other error — is logged and swallowed.  `o1` and `o2`
are the outcomes the storage engine gives the first and second write. -/
def saveSessionsToStorage (st : StoreState) (slot : StoredText)
    (o1 o2 : WriteOutcome) : SaveResult :=
  match o1 with
  | .ok => ⟨st, .parsed (encodeSessionsJson st.sessions), 1⟩
  | .otherError => ⟨st, slot, 1⟩
  | .quotaExceeded =>
    let recentSessions := st.sessions.take 10
    let st1 := { st with sessions := recentSessions }
    match o2 with
    | .ok => ⟨st1, .parsed (encodeSessionsJson recentSessions), 2⟩
    | _ => ⟨st1, slot, 2⟩

/-! ## exportSession -/

inductive ExportFormat where
  | json
  | markdown
deriving Repr, DecidableEq

/-- The string `exportSession` returns: `''` for an unknown id, a
`JSON.stringify(session, null, 2)` text (represented by its parse tree), or
a built markdown transcript. -/
inductive ExportResult where
  | empty
  | jsonDoc (doc : Json)
  | markdownDoc (text : String)
deriving Repr

/-- `timestamp.toLocaleString()` — locale rendering abstracted by the same
injective millisecond rendering as serialization. -/
def localeStringOfMs (t : Nat) : String := isoOfMs t

/-- One `## role / content / timestamp` markdown block per message. -/
def messageBlock (md : String) (m : ChatMessage) : String :=
  let roleIcon := if m.role = Role.user then "👤" else "🤖"
  md ++ "## " ++ roleIcon ++ " " ++ m.role.upper ++ "\n\n" ++
    m.content ++ "\n\n" ++ "*" ++ localeStringOfMs m.timestamp ++ "*\n\n---\n\n"

/-- `exportSession(sessionId, format)`. -/
def exportSession (st : StoreState) (sessionId : String)
    (format : ExportFormat) : ExportResult :=
  match st.sessions.find? (fun s => s.id == sessionId) with
  | none => .empty
  | some session =>
    match format with
    | .markdown =>
      let header := "# " ++ session.title ++ "\n\n" ++
        "*Creado: " ++ localeStringOfMs session.createdAt ++ "*\n\n"
      .markdownDoc (session.messages.foldl messageBlock header)
    | .json => .jsonDoc (encodeSessionJson session)

/-! ## sendMessage

`sendMessage` is the only suspension point: everything up to the `fetch`
call runs synchronously (`sendMessageStart`), the continuation after the
awaited response runs later (`sendMessageFinish`).  The `PendingRequest`
record carries exactly what the JS closure carries across the await: the
generation of the `AbortController` created for this request, the locally
built `updatedSession`, the `currentSession` value captured at call entry,
and the request payload already sent. -/

/-- Construction-time configuration of the hook (`UseChatGPTOptions` after
defaulting).  The sampling temperature is carried as an exact rational. -/
structure Config where
  model : String
  maxTokens : Nat
  temperature : ℚ

/-- One `{role, content}` pair of the request body. -/
structure ApiMessage where
  role : Role
  content : String
deriving Repr, DecidableEq

/-- Body of the POST to the completions endpoint. -/
structure Payload where
  model : String
  messages : List ApiMessage
  max_tokens : Nat
  temperature : ℚ
  stream : Bool

/-- `message` object inside a response choice. -/
structure ChoiceMessage where
  role : String
  content : String
deriving Repr, DecidableEq

/-- One element of `choices` in an `OpenAIResponse`. -/
structure Choice where
  index : Nat
  message : ChoiceMessage
  finish_reason : String
deriving Repr, DecidableEq

/-- `usage` object of an `OpenAIResponse`. -/
structure Usage where
  prompt_tokens : Nat
  completion_tokens : Nat
  total_tokens : Nat
deriving Repr, DecidableEq

/-- The parts of a parsed 2xx response body the code reads; `usage` is
optional because the code guards it with `usage?.`. -/
structure OpenAIResponseData where
  choices : List Choice
  usage : Option Usage
deriving Repr, DecidableEq

/-- How the awaited `fetch` (plus body parsing) resolves:
a parsed 2xx body, a non-2xx response (with the optional
`errorData.error?.message` its body yields), or a rejected promise
carrying a JS error (`AbortError`, connectivity `TypeError`, ...). -/
inductive FetchOutcome where
  | ok (data : OpenAIResponseData)
  | httpError (status : Nat) (statusText : String) (bodyErrorMessage : Option String)
  | rejected (name message : String)
deriving Repr

/-- A thrown JS error as the catch block sees it. -/
structure JsError where
  name : String
  message : String
deriving Repr, DecidableEq

/-- Environment inputs consumed by the synchronous part of `sendMessage`:
the id/date for a possibly created session, the generated user-message id,
and the clock. -/
structure StartFresh where
  newSessionId : String
  newSessionDateStr : String
  userMessageId : String
  now : Nat
deriving Repr, DecidableEq

/-- Environment inputs consumed by the continuation: the generated
assistant-message id and the clock at completion. -/
structure FinishFresh where
  assistantMessageId : String
  now : Nat
deriving Repr, DecidableEq

/-- What the JS closure retains across the await. -/
structure PendingRequest where
  gen : Nat
  updatedSession : ChatSession
  entryCurrent : Option ChatSession
  payload : Payload

/-- `sessionId ? sessions.find(...) : currentSession`. -/
def resolveTarget (st : StoreState) (sessionId : Option String) : Option ChatSession :=
  match sessionId with
  | some i => st.sessions.find? (fun s => s.id == i)
  | none => st.currentSession

/-- The user message `sendMessageStart` builds. -/
def userMessageOf (content : String) (fr : StartFresh) : ChatMessage :=
  { id := fr.userMessageId
    role := .user
    content := content
    timestamp := fr.now
    tokens := none }

/-- The session `sendMessage` operates on: the resolved one, else the
session `createNewSession()` would build from the given fresh inputs. -/
def sendTarget (st : StoreState) (sessionId : Option String)
    (fr : StartFresh) : ChatSession :=
  match resolveTarget st sessionId with
  | some s => s
  | none =>
    { id := fr.newSessionId
      title := "Chat " ++ fr.newSessionDateStr
      messages := []
      createdAt := fr.now
      updatedAt := fr.now }

/-- `if (abortControllerRef.current) abortControllerRef.current.abort()`:
the generation of the pending controller, if any, joins the aborted set. -/
def cancelPending (st : StoreState) : StoreState :=
  match st.abortController with
  | some g => { st with abortedGens := g :: st.abortedGens }
  | none => st

/-- Synchronous phase of `sendMessage(content, sessionId?)`: abort any
pending request, resolve (or create) the target session, append the user
message, raise the loading flag, clear the error, install a fresh
`AbortController` and build the request payload.  No check of any kind is
made on `content`. -/
def sendMessageStart (cfg : Config) (st : StoreState) (content : String)
    (sessionId : Option String) (fr : StartFresh) : StoreState × PendingRequest :=
  let entryCurrent := st.currentSession
  let st1 := cancelPending st
  let (st2, targetSession) :=
    match resolveTarget st1 sessionId with
    | some s => (st1, s)
    | none => createNewSession st1 none fr.newSessionId fr.newSessionDateStr fr.now
  let userMessage := userMessageOf content fr
  let updatedSession :=
    { targetSession with
        messages := targetSession.messages ++ [userMessage]
        updatedAt := fr.now }
  let st3 :=
    { st2 with
        sessions := st2.sessions.map fun (s : ChatSession) =>
          if s.id == updatedSession.id then updatedSession else s }
  let st4 :=
    { st3 with
        currentSession :=
          if idMatches entryCurrent updatedSession.id then some updatedSession
          else st3.currentSession }
  let st5 := { st4 with isLoading := true, error := none }
  let gen := st5.nextGen
  let st6 := { st5 with abortController := some gen, nextGen := st5.nextGen + 1 }
  let apiMessages := updatedSession.messages.map fun m =>
    ApiMessage.mk m.role m.content
  let payload : Payload :=
    { model := cfg.model
      messages := apiMessages
      max_tokens := cfg.maxTokens
      temperature := cfg.temperature
      stream := false }
  (st6, { gen := gen, updatedSession := updatedSession,
          entryCurrent := entryCurrent, payload := payload })

/-- `pat` occurs as a contiguous run inside `l`. -/
def listHasSub (pat : List Char) : List Char → Bool
  | [] => pat.isEmpty
  | c :: rest => pat.isPrefixOf (c :: rest) || listHasSub pat rest

/-- JS `s.includes(pat)`. -/
def strContains (s pat : String) : Bool := listHasSub pat.data s.data

/-- `handleApiError`: classify a thrown error into a user-facing string. -/
def handleApiError (err : JsError) : String :=
  if strContains err.message "API key" then
    "API key inválida o no configurada"
  else if strContains err.message "429" then
    "Límite de rate excedido. Intenta nuevamente en unos momentos"
  else if strContains err.message "insufficient_quota" then
    "Cuota de API agotada. Verifica tu billing en OpenAI"
  else if err.name == "TypeError" && strContains err.message "fetch" then
    "Error de conexión. Verifica tu conexión a internet"
  else if err.message == "" then
    "Error desconocido al comunicarse con la API"
  else
    err.message

/-- The message the non-ok branch throws:
`errorData.error?.message || "HTTP status: statusText"`. -/
def httpErrorText (status : Nat) (statusText : String)
    (bodyErrorMessage : Option String) : String :=
  jsOrStr bodyErrorMessage ("HTTP " ++ toString status ++ ": " ++ statusText)

/-- The catch block of `sendMessage`: drop the loading flag; an
`AbortError` just returns null; anything else records the classified error
and appends an assistant-role error message to the captured session. -/
def errorResponseMessageOf (err : JsError) (fr : FinishFresh) : ChatMessage :=
  { id := fr.assistantMessageId
    role := .assistant
    content := "Error: " ++ handleApiError err
    timestamp := fr.now
    tokens := none }

def sendMessageCatch (st : StoreState) (pr : PendingRequest) (err : JsError)
    (fr : FinishFresh) : StoreState × Option ChatMessage :=
  let st1 := { st with isLoading := false }
  if err.name == "AbortError" then
    (st1, none)
  else
    let errorMessage := handleApiError err
    let st2 := { st1 with error := some errorMessage }
    let errorResponseMessage : ChatMessage := errorResponseMessageOf err fr
    let errorSession :=
      { pr.updatedSession with
          messages := pr.updatedSession.messages ++ [errorResponseMessage]
          updatedAt := fr.now }
    let st3 :=
      { st2 with
          sessions := st2.sessions.map fun (s : ChatSession) =>
            if s.id == errorSession.id then errorSession else s }
    let st4 :=
      { st3 with
          currentSession :=
            if idMatches pr.entryCurrent errorSession.id then some errorSession
            else st3.currentSession }
    (st4, some errorResponseMessage)

/-- The assistant message a parsed 2xx body produces:
`choices[0]?.message?.content || 'No response'` plus
`usage?.total_tokens`. -/
def assistantMessageOf (data : OpenAIResponseData) (fr : FinishFresh) : ChatMessage :=
  { id := fr.assistantMessageId
    role := .assistant
    content := jsOrStr (data.choices.head?.map fun c => c.message.content) "No response"
    timestamp := fr.now
    tokens := data.usage.map Usage.total_tokens }

/-- Continuation of `sendMessage` once the awaited request settles. -/
def sendMessageFinish (st : StoreState) (pr : PendingRequest)
    (outcome : FetchOutcome) (fr : FinishFresh) : StoreState × Option ChatMessage :=
  match outcome with
  | .ok data =>
    let assistantMessage := assistantMessageOf data fr
    let finalSession :=
      { pr.updatedSession with
          messages := pr.updatedSession.messages ++ [assistantMessage]
          updatedAt := fr.now }
    let st1 :=
      { st with
          sessions := st.sessions.map fun (s : ChatSession) =>
            if s.id == finalSession.id then finalSession else s }
    let st2 :=
      { st1 with
          currentSession :=
            if idMatches pr.entryCurrent finalSession.id then some finalSession
            else st1.currentSession }
    ({ st2 with isLoading := false }, some assistantMessage)
  | .httpError status statusText bodyErrorMessage =>
    sendMessageCatch st pr ⟨"Error", httpErrorText status statusText bodyErrorMessage⟩ fr
  | .rejected name message =>
    sendMessageCatch st pr ⟨name, message⟩ fr

/-- `sendMessage` run to completion with no interleaved store activity:
the synchronous phase immediately followed by the continuation on the
given outcome. -/
def sendMessage (cfg : Config) (st : StoreState) (content : String)
    (sessionId : Option String) (sf : StartFresh) (outcome : FetchOutcome)
    (ff : FinishFresh) : StoreState × Option ChatMessage :=
  let (st1, pr) := sendMessageStart cfg st content sessionId sf
  sendMessageFinish st1 pr outcome ff

/-- Some session of the list carries the given id. -/
def hasId (l : List ChatSession) (i : String) : Bool :=
  l.any (fun s => s.id == i)

/-- The data-model invariant: the active-session reference, when set,
identifies (by id) a session present in the set. -/
def activeOk (st : StoreState) : Bool :=
  match st.currentSession with
  | none => true
  | some c => hasId st.sessions c.id

/-- Assistant-role messages in a list. -/
def assistantCount (l : List ChatMessage) : Nat :=
  (l.filter fun m => decide (m.role = Role.assistant)).length

/-- Token sum restricted to assistant-role messages of one session. -/
def assistantTokens (s : ChatSession) : Nat :=
  s.messages.foldl
    (fun acc m => acc + (if m.role = Role.assistant then m.tokens.getD 0 else 0)) 0

/-- Every token count in the store sits on an assistant-role message — true
of every state the store itself produces, since user messages are built
without a `tokens` field. -/
def onlyAssistantTokens (st : StoreState) : Bool :=
  st.sessions.all fun s =>
    s.messages.all fun m =>
      decide (m.role = Role.assistant) || decide (m.tokens = none)

/-- Concrete configuration used by the witness scenarios. -/
def wCfg : Config := ⟨"gpt-3.5-turbo", 1000, 7/10⟩

/-- Witness store: a fresh store holding one created session `"s1"`. -/
def wStore : StoreState := (createNewSession initialStoreState none "s1" "d" 0).1

def wSf1 : StartFresh := ⟨"n1", "d", "u1", 1⟩

def wSf2 : StartFresh := ⟨"n2", "d", "u2", 2⟩

def wFf1 : FinishFresh := ⟨"a1", 3⟩

def wFf2 : FinishFresh := ⟨"a2", 4⟩

/-- A parsed 2xx body reporting `usage.total_tokens = 42`. -/
def wData : OpenAIResponseData := ⟨[⟨0, ⟨"assistant", "Hi"⟩, "stop"⟩], some ⟨30, 12, 42⟩⟩

/-- A parsed 2xx body reporting `usage.total_tokens = 58`. -/
def wData2 : OpenAIResponseData := ⟨[⟨0, ⟨"assistant", "Otra"⟩, "stop"⟩], some ⟨40, 18, 58⟩⟩

/-! ## Supporting lemmas -/

@[simp] theorem cancelPending_sessions (st : StoreState) :
    (cancelPending st).sessions = st.sessions := by
  cases h : st.abortController <;> simp [cancelPending, h]

@[simp] theorem cancelPending_currentSession (st : StoreState) :
    (cancelPending st).currentSession = st.currentSession := by
  cases h : st.abortController <;> simp [cancelPending, h]

@[simp] theorem cancelPending_nextGen (st : StoreState) :
    (cancelPending st).nextGen = st.nextGen := by
  cases h : st.abortController <;> simp [cancelPending, h]

@[simp] theorem resolveTarget_cancelPending (st : StoreState) (sessionId : Option String) :
    resolveTarget (cancelPending st) sessionId = resolveTarget st sessionId := by
  cases h : st.abortController <;> simp [cancelPending, h, resolveTarget]

theorem digitVal_digitChar {d : Nat} (hd : d < 10) :
    digitVal (digitChar d) = some d := by
  interval_cases d <;> decide

theorem mapOpt_digitVal_map_digitChar {l : List Nat} (h : ∀ d ∈ l, d < 10) :
    mapOpt digitVal (l.map digitChar) = some l := by
  induction l with
  | nil => rfl
  | cons a l ih =>
    have ha : digitVal (digitChar a) = some a := digitVal_digitChar (h a (by simp))
    have hl := ih (fun d hd => h d (by simp [hd]))
    simp [mapOpt, ha, hl]

/-- The serialized-date codec is a round trip. -/
theorem msOfIso_isoOfMs (t : Nat) : msOfIso (isoOfMs t) = some t := by
  by_cases h : t = 0
  · subst h; decide
  · have hne : Nat.digits 10 t ≠ [] := Nat.digits_ne_nil_iff_ne_zero.mpr h
    have hlt : ∀ d ∈ (Nat.digits 10 t).reverse, d < 10 := by
      intro d hd
      exact Nat.digits_lt_base (by norm_num) (List.mem_reverse.mp hd)
    have hdata : (isoOfMs t).data = ((Nat.digits 10 t).reverse).map digitChar := by
      simp [isoOfMs, h, List.map_reverse]
    rw [msOfIso, hdata, mapOpt_digitVal_map_digitChar hlt]
    simp [hne, Nat.ofDigits_digits]

theorem Role.ofStr_str (r : Role) : Role.ofStr r.str = some r := by
  cases r <;> rfl

theorem reviveMessage_encodeMessage (m : ChatMessage) :
    reviveMessage (encodeMessageJson m) = some m := by
  cases m with
  | mk id role content timestamp tokens =>
    cases tokens <;>
      simp +decide [reviveMessage, encodeMessageJson, Json.getField, List.lookup,
        Json.asString, newDate, msOfIso_isoOfMs, Role.ofStr_str]

theorem mapOpt_reviveMessage (l : List ChatMessage) :
    mapOpt reviveMessage (l.map encodeMessageJson) = some l := by
  induction l with
  | nil => rfl
  | cons a l ih => simp [mapOpt, reviveMessage_encodeMessage, ih]

/-- Revival inverts serialization on one session. -/
theorem reviveSession_encodeSession (s : ChatSession) :
    reviveSession (encodeSessionJson s) = some s := by
  cases s with
  | mk id title messages createdAt updatedAt =>
    simp +decide [reviveSession, encodeSessionJson, Json.getField, List.lookup,
      Json.asString, newDate, msOfIso_isoOfMs, mapOpt_reviveMessage]

/-- Revival inverts serialization on the whole stored session list. -/
theorem reviveSessions_encodeSessions (ss : List ChatSession) :
    reviveSessions (encodeSessionsJson ss) = some ss := by
  rw [encodeSessionsJson, reviveSessions]
  induction ss with
  | nil => rfl
  | cons a l ih => simp [mapOpt, reviveSession_encodeSession, ih]

theorem find?_map_replace (l : List ChatSession) {i : String} (u : ChatSession)
    (hu : u.id = i) :
    (l.map fun s => if s.id == i then u else s).find? (fun s => s.id == i)
      = (l.find? (fun s => s.id == i)).map (fun _ => u) := by
  induction l with
  | nil => rfl
  | cons a l ih =>
    by_cases h : a.id = i
    · simp [h, hu]
    · simp only [List.map_cons]
      rw [if_neg (by simpa using h), List.find?_cons_of_neg _ (by simpa using h),
        List.find?_cons_of_neg _ (by simpa using h), ih]

theorem ids_map_replace (l : List ChatSession) {i : String} (u : ChatSession)
    (hu : u.id = i) :
    (l.map fun s => if s.id == i then u else s).map ChatSession.id
      = l.map ChatSession.id := by
  rw [List.map_map]
  apply List.map_congr_left
  intro a _
  by_cases h : a.id = i <;> simp [Function.comp, h, hu]


theorem hasId_map_replace (l : List ChatSession) {i : String} (u : ChatSession)
    (hu : u.id = i) (j : String) :
    hasId (l.map fun s => if s.id == i then u else s) j = hasId l j := by
  have h1 : ∀ (l' : List ChatSession),
      hasId l' j = (l'.map ChatSession.id).any (fun x => x == j) := by
    intro l'
    induction l' with
    | nil => rfl
    | cons a t ih => simp [hasId] at ih ⊢; rw [ih]
  rw [h1, h1, ids_map_replace l u hu]

theorem hasId_of_find? {l : List ChatSession} {i : String} {t : ChatSession}
    (h : l.find? (fun s => s.id == i) = some t) : hasId l i = true := by
  have hmem := List.mem_of_find?_eq_some h
  have hp := List.find?_some h
  simp only [hasId, List.any_eq_true]
  exact ⟨t, hmem, hp⟩

theorem find?_eq_of_hasId {l : List ChatSession} {i : String}
    (h : hasId l i = true) : ∃ t, l.find? (fun s => s.id == i) = some t := by
  rcases List.any_eq_true.mp h with ⟨s, hs, hp⟩
  cases hf : l.find? (fun s => s.id == i) with
  | some t => exact ⟨t, rfl⟩
  | none => exact absurd hp (by simpa using List.find?_eq_none.mp hf s hs)

theorem id_of_find? {l : List ChatSession} {i : String} {t : ChatSession}
    (h : l.find? (fun s => s.id == i) = some t) : t.id = i := by
  simpa using List.find?_some h


/-- The resolved target session always has an entry with its id in the
post-start session list; with the invariant, its list entry after the
synchronous phase is exactly the old messages plus the new user message,
the pending record captures that session, and the payload carries the
whole updated history. -/
theorem sendMessageStart_spec (cfg : Config) (st : StoreState) (content : String)
    (sessionId : Option String) (fr : StartFresh) (hok : activeOk st = true) :
    msgsOfId (sendMessageStart cfg st content sessionId fr).1
        (sendTarget st sessionId fr).id
      = some ((sendTarget st sessionId fr).messages ++ [userMessageOf content fr]) ∧
    (sendMessageStart cfg st content sessionId fr).2.payload.messages
      = ((sendTarget st sessionId fr).messages ++ [userMessageOf content fr]).map
          (fun m => ApiMessage.mk m.role m.content) ∧
    (sendMessageStart cfg st content sessionId fr).2.updatedSession
      = { sendTarget st sessionId fr with
            messages := (sendTarget st sessionId fr).messages ++ [userMessageOf content fr]
            updatedAt := fr.now } ∧
    hasId (sendMessageStart cfg st content sessionId fr).1.sessions
        (sendTarget st sessionId fr).id = true := by
  cases hres : resolveTarget st sessionId with
  | some t =>
    have hfound : hasId st.sessions t.id = true := by
      cases sessionId with
      | some i =>
        have : st.sessions.find? (fun s => s.id == i) = some t := by
          simpa [resolveTarget] using hres
        rw [id_of_find? this]
        exact hasId_of_find? this
      | none =>
        have hcur : st.currentSession = some t := by
          simpa [resolveTarget] using hres
        simpa [activeOk, hcur] using hok
    have htarget : sendTarget st sessionId fr = t := by
      simp [sendTarget, hres]
    rcases find?_eq_of_hasId hfound with ⟨t', hfind⟩
    constructor
    · simp only [sendMessageStart, resolveTarget_cancelPending, hres, msgsOfId,
        htarget, cancelPending_sessions]
      rw [@find?_map_replace st.sessions t.id
        ⟨t.id, t.title, t.messages ++ [userMessageOf content fr], t.createdAt, fr.now⟩
        rfl, hfind]
      rfl
    · refine ⟨by simp [sendMessageStart, hres, htarget], ?_, ?_⟩
      · simp [sendMessageStart, hres, htarget]
      · simp only [sendMessageStart, resolveTarget_cancelPending, hres, htarget,
          cancelPending_sessions]
        rw [@hasId_map_replace st.sessions t.id
          ⟨t.id, t.title, t.messages ++ [userMessageOf content fr], t.createdAt, fr.now⟩
          rfl t.id, hfound]
  | none =>
    have htarget : sendTarget st sessionId fr =
        { id := fr.newSessionId, title := "Chat " ++ fr.newSessionDateStr,
          messages := [], createdAt := fr.now, updatedAt := fr.now } := by
      simp [sendTarget, hres]
    constructor
    · simp [sendMessageStart, hres, htarget, createNewSession, jsOrStr, msgsOfId,
        List.find?_cons_of_pos]
    · refine ⟨by simp [sendMessageStart, hres, htarget, createNewSession, jsOrStr], ?_, ?_⟩
      · simp [sendMessageStart, hres, htarget, createNewSession, jsOrStr]
      · simp [sendMessageStart, hres, htarget, createNewSession, jsOrStr, hasId]

theorem hasId_map_of_id_preserved (f : ChatSession → ChatSession)
    (hf : ∀ s, (f s).id = s.id) (l : List ChatSession) (j : String) :
    hasId (l.map f) j = hasId l j := by
  induction l with
  | nil => rfl
  | cons a t ih => simp [hasId] at ih ⊢; rw [hf a, ih]

/-- Whatever the outcome, the continuation leaves the target id present and
either leaves its entry untouched (cancellation) or appends exactly one
more message to the captured updated session. -/
theorem sendMessageFinish_msgs (st1 : StoreState) (pr : PendingRequest)
    (outcome : FetchOutcome) (ff : FinishFresh) {f : ChatSession}
    (hfind : st1.sessions.find? (fun s => s.id == pr.updatedSession.id) = some f) :
    msgsOfId (sendMessageFinish st1 pr outcome ff).1 pr.updatedSession.id
        = some f.messages ∨
    ∃ x, msgsOfId (sendMessageFinish st1 pr outcome ff).1 pr.updatedSession.id
        = some (pr.updatedSession.messages ++ [x]) := by
  have hmain : ∀ (x : ChatMessage),
      msgsOfId
        { st1 with
            sessions := st1.sessions.map fun (s : ChatSession) =>
              if s.id == pr.updatedSession.id then
                ⟨pr.updatedSession.id, pr.updatedSession.title,
                 pr.updatedSession.messages ++ [x], pr.updatedSession.createdAt,
                 ff.now⟩
              else s }
        pr.updatedSession.id
      = some (pr.updatedSession.messages ++ [x]) := by
    intro x
    simp only [msgsOfId]
    rw [@find?_map_replace st1.sessions pr.updatedSession.id
      ⟨pr.updatedSession.id, pr.updatedSession.title,
       pr.updatedSession.messages ++ [x], pr.updatedSession.createdAt, ff.now⟩
      rfl, hfind]
    rfl
  cases outcome with
  | ok data =>
    right
    refine ⟨assistantMessageOf data ff, ?_⟩
    have := hmain (assistantMessageOf data ff)
    simpa [sendMessageFinish, msgsOfId] using this
  | httpError status statusText bodyErrorMessage =>
    right
    refine ⟨errorResponseMessageOf ⟨"Error", httpErrorText status statusText bodyErrorMessage⟩ ff, ?_⟩
    have := hmain (errorResponseMessageOf ⟨"Error", httpErrorText status statusText bodyErrorMessage⟩ ff)
    simpa [sendMessageFinish, sendMessageCatch, msgsOfId] using this
  | rejected name message =>
    by_cases habort : name = "AbortError"
    · left
      simp [sendMessageFinish, sendMessageCatch, habort, msgsOfId, hfind]
    · right
      refine ⟨errorResponseMessageOf ⟨name, message⟩ ff, ?_⟩
      have := hmain (errorResponseMessageOf ⟨name, message⟩ ff)
      simpa [sendMessageFinish, sendMessageCatch, habort, msgsOfId] using this

theorem activeOk_sendMessageStart (cfg : Config) (st : StoreState) (content : String)
    (sessionId : Option String) (fr : StartFresh) (hok : activeOk st = true) :
    activeOk (sendMessageStart cfg st content sessionId fr).1 = true := by
  cases hres : resolveTarget st sessionId with
  | some t =>
    have hfound : hasId st.sessions t.id = true := by
      cases sessionId with
      | some i =>
        have : st.sessions.find? (fun s => s.id == i) = some t := by
          simpa [resolveTarget] using hres
        rw [id_of_find? this]
        exact hasId_of_find? this
      | none =>
        have hcur : st.currentSession = some t := by
          simpa [resolveTarget] using hres
        simpa [activeOk, hcur] using hok
    have hpres : ∀ j, hasId ((cancelPending st).sessions.map fun (s : ChatSession) =>
        if s.id == t.id then
          ⟨t.id, t.title, t.messages ++ [userMessageOf content fr], t.createdAt, fr.now⟩
        else s) j = hasId st.sessions j := by
      intro j
      rw [cancelPending_sessions]
      exact @hasId_map_replace st.sessions t.id
        ⟨t.id, t.title, t.messages ++ [userMessageOf content fr], t.createdAt, fr.now⟩
        rfl j
    by_cases hc : idMatches st.currentSession t.id = true
    · simp only [sendMessageStart, resolveTarget_cancelPending, hres, activeOk,
        cancelPending_currentSession, hc, if_pos]
      simpa using (hpres t.id).trans hfound
    · simp only [sendMessageStart, resolveTarget_cancelPending, hres, activeOk,
        cancelPending_currentSession, hc]
      cases hcur : st.currentSession with
      | none => simp
      | some c =>
        have : hasId st.sessions c.id = true := by
          simpa [activeOk, hcur] using hok
        simpa [hcur] using (hpres c.id).trans this
  | none =>
    by_cases hc : idMatches st.currentSession fr.newSessionId = true <;>
      simp [sendMessageStart, hres, createNewSession, jsOrStr, activeOk, hc, hasId]

theorem activeOk_sendMessageFinish (st1 : StoreState) (pr : PendingRequest)
    (outcome : FetchOutcome) (ff : FinishFresh) (hok : activeOk st1 = true)
    (hhas : hasId st1.sessions pr.updatedSession.id = true) :
    activeOk (sendMessageFinish st1 pr outcome ff).1 = true := by
  have hpres : ∀ (x : ChatMessage) (j : String),
      hasId (st1.sessions.map fun (s : ChatSession) =>
        if s.id == pr.updatedSession.id then
          ⟨pr.updatedSession.id, pr.updatedSession.title,
           pr.updatedSession.messages ++ [x], pr.updatedSession.createdAt, ff.now⟩
        else s) j = hasId st1.sessions j := by
    intro x j
    exact @hasId_map_replace st1.sessions pr.updatedSession.id
      ⟨pr.updatedSession.id, pr.updatedSession.title,
       pr.updatedSession.messages ++ [x], pr.updatedSession.createdAt, ff.now⟩
      rfl j
  have hcommon : ∀ (x : ChatMessage) (b : Bool) (e : Option String),
      activeOk
        { st1 with
            sessions := st1.sessions.map fun (s : ChatSession) =>
              if s.id == pr.updatedSession.id then
                ⟨pr.updatedSession.id, pr.updatedSession.title,
                 pr.updatedSession.messages ++ [x], pr.updatedSession.createdAt,
                 ff.now⟩
              else s
            currentSession :=
              if idMatches pr.entryCurrent pr.updatedSession.id then
                some ⟨pr.updatedSession.id, pr.updatedSession.title,
                  pr.updatedSession.messages ++ [x], pr.updatedSession.createdAt,
                  ff.now⟩
              else st1.currentSession
            isLoading := b
            error := e } = true := by
    intro x b e
    by_cases hc : idMatches pr.entryCurrent pr.updatedSession.id = true
    · simp only [activeOk, hc, if_pos]
      simpa using (hpres x pr.updatedSession.id).trans hhas
    · simp only [activeOk, hc]
      cases hcur : st1.currentSession with
      | none => simp
      | some c =>
        have : hasId st1.sessions c.id = true := by
          simpa [activeOk, hcur] using hok
        simpa [hcur] using (hpres x c.id).trans this
  cases outcome with
  | ok data =>
    have := hcommon (assistantMessageOf data ff) false st1.error
    simpa [sendMessageFinish] using this
  | httpError status statusText bodyErrorMessage =>
    have := hcommon
      (errorResponseMessageOf ⟨"Error", httpErrorText status statusText bodyErrorMessage⟩ ff)
      false
      (some (handleApiError ⟨"Error", httpErrorText status statusText bodyErrorMessage⟩))
    simpa [sendMessageFinish, sendMessageCatch, errorResponseMessageOf] using this
  | rejected name message =>
    by_cases habort : name = "AbortError"
    · simpa [sendMessageFinish, sendMessageCatch, habort, activeOk] using hok
    · have := hcommon (errorResponseMessageOf ⟨name, message⟩ ff) false
        (some (handleApiError ⟨name, message⟩))
      simpa [sendMessageFinish, sendMessageCatch, habort, errorResponseMessageOf] using this

/-- Shared core of C1/C2: for any content whatsoever, the synchronous phase
appends exactly the one user message to the target session's entry, the
request payload already carries it, and it is still there after the
continuation runs, whatever the outcome. -/
theorem sendMessage_user_message_effect (cfg : Config) (st : StoreState)
    (content : String) (sessionId : Option String) (sf : StartFresh)
    (hok : activeOk st = true) :
    msgsOfId (sendMessageStart cfg st content sessionId sf).1
        (sendTarget st sessionId sf).id
      = some ((sendTarget st sessionId sf).messages ++ [userMessageOf content sf]) ∧
    (sendMessageStart cfg st content sessionId sf).2.payload.messages
      = ((sendTarget st sessionId sf).messages ++ [userMessageOf content sf]).map
          (fun m => ApiMessage.mk m.role m.content) ∧
    ∀ (outcome : FetchOutcome) (ff : FinishFresh), ∃ msgs,
      msgsOfId (sendMessage cfg st content sessionId sf outcome ff).1
          (sendTarget st sessionId sf).id = some msgs ∧
      userMessageOf content sf ∈ msgs := by
  obtain ⟨h1, h2, h3, _⟩ := sendMessageStart_spec cfg st content sessionId sf hok
  refine ⟨h1, h2, ?_⟩
  intro outcome ff
  have hid : (sendMessageStart cfg st content sessionId sf).2.updatedSession.id
      = (sendTarget st sessionId sf).id := by rw [h3]
  have hmsgs : (sendMessageStart cfg st content sessionId sf).2.updatedSession.messages
      = (sendTarget st sessionId sf).messages ++ [userMessageOf content sf] := by rw [h3]
  obtain ⟨f, hf, hfm⟩ :
      ∃ f, (sendMessageStart cfg st content sessionId sf).1.sessions.find?
            (fun s => s.id == (sendTarget st sessionId sf).id) = some f ∧
          f.messages
            = (sendTarget st sessionId sf).messages ++ [userMessageOf content sf] := by
    rcases Option.map_eq_some'.mp h1 with ⟨f, hf, hfm⟩
    exact ⟨f, hf, hfm⟩
  have hfind : (sendMessageStart cfg st content sessionId sf).1.sessions.find?
      (fun s => s.id == (sendMessageStart cfg st content sessionId sf).2.updatedSession.id)
      = some f := by rw [hid]; exact hf
  have := sendMessageFinish_msgs (sendMessageStart cfg st content sessionId sf).1
    (sendMessageStart cfg st content sessionId sf).2 outcome ff hfind
  rw [hid, hmsgs] at this
  have hsm : (sendMessage cfg st content sessionId sf outcome ff).1
      = (sendMessageFinish (sendMessageStart cfg st content sessionId sf).1
          (sendMessageStart cfg st content sessionId sf).2 outcome ff).1 := rfl
  rcases this with h | ⟨x, h⟩
  · exact ⟨f.messages, by rw [hsm]; exact h, by rw [hfm]; simp⟩
  · exact ⟨(sendTarget st sessionId sf).messages ++ [userMessageOf content sf] ++ [x],
      by rw [hsm]; exact h, by simp⟩

@[simp] theorem cancelPending_abortedGens (st : StoreState) :
    (cancelPending st).abortedGens
      = match st.abortController with
        | some g => g :: st.abortedGens
        | none => st.abortedGens := by
  cases hab : st.abortController <;> simp [cancelPending, hab]

theorem sendMessageStart_gen (cfg : Config) (st : StoreState) (content : String)
    (sessionId : Option String) (fr : StartFresh) :
    (sendMessageStart cfg st content sessionId fr).2.gen = st.nextGen := by
  cases hres : resolveTarget st sessionId <;>
    simp [sendMessageStart, resolveTarget_cancelPending, hres, createNewSession]

theorem sendMessageStart_nextGen (cfg : Config) (st : StoreState) (content : String)
    (sessionId : Option String) (fr : StartFresh) :
    (sendMessageStart cfg st content sessionId fr).1.nextGen = st.nextGen + 1 := by
  cases hres : resolveTarget st sessionId <;>
    simp [sendMessageStart, resolveTarget_cancelPending, hres, createNewSession]

theorem sendMessageStart_abortController (cfg : Config) (st : StoreState)
    (content : String) (sessionId : Option String) (fr : StartFresh) :
    (sendMessageStart cfg st content sessionId fr).1.abortController
      = some st.nextGen := by
  cases hres : resolveTarget st sessionId <;>
    simp [sendMessageStart, resolveTarget_cancelPending, hres, createNewSession]

theorem sendMessageStart_abortedGens (cfg : Config) (st : StoreState)
    (content : String) (sessionId : Option String) (fr : StartFresh) :
    (sendMessageStart cfg st content sessionId fr).1.abortedGens
      = match st.abortController with
        | some g => g :: st.abortedGens
        | none => st.abortedGens := by
  cases hres : resolveTarget st sessionId <;>
    simp [sendMessageStart, resolveTarget_cancelPending, hres, createNewSession]

/-- A request whose controller was aborted settles with an `AbortError`:
the continuation only drops the loading flag and returns null. -/
theorem sendMessageFinish_abort (st1 : StoreState) (pr : PendingRequest)
    (m : String) (ff : FinishFresh) :
    sendMessageFinish st1 pr (.rejected "AbortError" m) ff
      = ({ st1 with isLoading := false }, none) := by
  simp [sendMessageFinish, sendMessageCatch]

/-- A live request that settles with a parsed 2xx body appends exactly the
assistant message to the captured session's entry and returns it. -/
theorem sendMessageFinish_ok (st1 : StoreState) (pr : PendingRequest)
    (data : OpenAIResponseData) (ff : FinishFresh)
    (hhas : hasId st1.sessions pr.updatedSession.id = true) :
    msgsOfId (sendMessageFinish st1 pr (.ok data) ff).1 pr.updatedSession.id
      = some (pr.updatedSession.messages ++ [assistantMessageOf data ff]) ∧
    (sendMessageFinish st1 pr (.ok data) ff).2 = some (assistantMessageOf data ff) := by
  rcases find?_eq_of_hasId hhas with ⟨f, hfind⟩
  constructor
  · simp only [sendMessageFinish, msgsOfId]
    rw [@find?_map_replace st1.sessions pr.updatedSession.id
      ⟨pr.updatedSession.id, pr.updatedSession.title,
       pr.updatedSession.messages ++ [assistantMessageOf data ff],
       pr.updatedSession.createdAt, ff.now⟩ rfl, hfind]
    rfl
  · simp [sendMessageFinish]

@[simp] theorem msgsOfId_isLoading (st : StoreState) (b : Bool) (j : String) :
    msgsOfId { st with isLoading := b } j = msgsOfId st j := rfl


theorem sendMessageStart_error (cfg : Config) (st : StoreState) (content : String)
    (sessionId : Option String) (fr : StartFresh) :
    (sendMessageStart cfg st content sessionId fr).1.error = none := by
  cases hres : resolveTarget st sessionId <;>
    simp [sendMessageStart, resolveTarget_cancelPending, hres, createNewSession]

theorem sendMessageFinish_ok_error (st1 : StoreState) (pr : PendingRequest)
    (data : OpenAIResponseData) (ff : FinishFresh) :
    (sendMessageFinish st1 pr (.ok data) ff).1.error = st1.error := by
  simp [sendMessageFinish]

/-- The catch path for a non-2xx response: the classified message lands in
the store-level error field and, prefixed with `"Error: "`, in one
assistant message appended to the captured session's entry. -/
theorem sendMessageFinish_httpError (st1 : StoreState) (pr : PendingRequest)
    (status : Nat) (statusText : String) (body : Option String) (ff : FinishFresh)
    (hhas : hasId st1.sessions pr.updatedSession.id = true) :
    msgsOfId (sendMessageFinish st1 pr (.httpError status statusText body) ff).1
        pr.updatedSession.id
      = some (pr.updatedSession.messages ++
          [errorResponseMessageOf ⟨"Error", httpErrorText status statusText body⟩ ff]) ∧
    (sendMessageFinish st1 pr (.httpError status statusText body) ff).1.error
      = some (handleApiError ⟨"Error", httpErrorText status statusText body⟩) ∧
    (sendMessageFinish st1 pr (.httpError status statusText body) ff).2
      = some (errorResponseMessageOf ⟨"Error", httpErrorText status statusText body⟩ ff) := by
  rcases find?_eq_of_hasId hhas with ⟨f, hfind⟩
  refine ⟨?_, ?_, ?_⟩
  · simp only [sendMessageFinish, sendMessageCatch, msgsOfId]
    rw [show (("Error" : String) == "AbortError") = false from rfl]
    simp only [Bool.false_eq_true, if_false]
    rw [@find?_map_replace st1.sessions pr.updatedSession.id
      ⟨pr.updatedSession.id, pr.updatedSession.title,
       pr.updatedSession.messages ++
         [errorResponseMessageOf ⟨"Error", httpErrorText status statusText body⟩ ff],
       pr.updatedSession.createdAt, ff.now⟩ rfl, hfind]
    rfl
  · simp [sendMessageFinish, sendMessageCatch]
  · simp [sendMessageFinish, sendMessageCatch, errorResponseMessageOf]

theorem handleApiError_429 (err : JsError)
    (h429 : strContains err.message "429" = true)
    (hkey : strContains err.message "API key" = false) :
    handleApiError err
      = "Límite de rate excedido. Intenta nuevamente en unos momentos" := by
  simp [handleApiError, h429, hkey]

/-! ## Claims -/

/-- C1: for every store state satisfying the data-model invariant and every
content string that is non-empty after trimming, `sendMessage` appends
exactly one user-role message to the target session's message list before
any network request is issued — the state produced by the synchronous phase
already shows the entry extended by exactly the one user message, and the
request payload already contains the whole history including it — and the
message is still in the session in every outcome (success, failure, or
cancellation). -/
theorem c1_sendMessage_appends_user_first (cfg : Config) (st : StoreState)
    (content : String) (sessionId : Option String) (sf : StartFresh)
    (hok : activeOk st = true) (hcontent : jsTrim content ≠ "") :
    msgsOfId (sendMessageStart cfg st content sessionId sf).1
        (sendTarget st sessionId sf).id
      = some ((sendTarget st sessionId sf).messages ++ [userMessageOf content sf]) ∧
    (sendMessageStart cfg st content sessionId sf).2.payload.messages
      = ((sendTarget st sessionId sf).messages ++ [userMessageOf content sf]).map
          (fun m => ApiMessage.mk m.role m.content) ∧
    ∀ (outcome : FetchOutcome) (ff : FinishFresh), ∃ msgs,
      msgsOfId (sendMessage cfg st content sessionId sf outcome ff).1
          (sendTarget st sessionId sf).id = some msgs ∧
      userMessageOf content sf ∈ msgs :=
  sendMessage_user_message_effect cfg st content sessionId sf hok

/-- Witness for C1 at a concrete input: fresh store, content `"Hola"`. -/
theorem c1_sendMessage_appends_user_first_witness :
    msgsOfId (sendMessageStart ⟨"gpt-3.5-turbo", 1000, 7/10⟩ initialStoreState "Hola" none
        ⟨"s1", "d", "u1", 5⟩).1 (sendTarget initialStoreState none ⟨"s1", "d", "u1", 5⟩).id
      = some ((sendTarget initialStoreState none ⟨"s1", "d", "u1", 5⟩).messages
          ++ [userMessageOf "Hola" ⟨"s1", "d", "u1", 5⟩]) :=
  (c1_sendMessage_appends_user_first ⟨"gpt-3.5-turbo", 1000, 7/10⟩ initialStoreState
    "Hola" none ⟨"s1", "d", "u1", 5⟩ (by decide) (by decide)).1

/-- C2 counterexample: with content `" "` (empty after trimming),
`sendMessage` is not a no-op: the synchronous phase already appends a user
message with the whitespace content to a newly created session, the request
payload is built non-empty (the request is issued), and the call returns a
message on success — refuting "appends no message, issues no remote
request, leaves the entire store state unchanged, and returns no
message". -/
theorem c2_empty_content_not_noop :
    jsTrim " " = "" ∧
    (sendMessageStart ⟨"m", 1000, 7/10⟩ initialStoreState " " none
        ⟨"s1", "d", "u1", 5⟩).1.sessions ≠ initialStoreState.sessions ∧
    msgsOfId (sendMessageStart ⟨"m", 1000, 7/10⟩ initialStoreState " " none
        ⟨"s1", "d", "u1", 5⟩).1 "s1" = some [userMessageOf " " ⟨"s1", "d", "u1", 5⟩] ∧
    (sendMessageStart ⟨"m", 1000, 7/10⟩ initialStoreState " " none
        ⟨"s1", "d", "u1", 5⟩).2.payload.messages = [⟨.user, " "⟩] ∧
    (sendMessage ⟨"m", 1000, 7/10⟩ initialStoreState " " none ⟨"s1", "d", "u1", 5⟩
        (.ok ⟨[⟨0, ⟨"assistant", "Hi"⟩, "stop"⟩], some ⟨1, 1, 2⟩⟩) ⟨"a1", 6⟩).2
      ≠ none := by
  refine ⟨by decide, by decide, by decide, by decide, by decide⟩

/-- C2 (amended): `sendMessage` performs no emptiness validation.  For
content that is empty after trimming it behaves exactly as for any other
content: it appends one user message carrying the untrimmed content to the
target session before the request, puts it in the request payload, and the
message stays in the session under every outcome. -/
theorem c2_empty_content_same_behavior (cfg : Config) (st : StoreState)
    (content : String) (sessionId : Option String) (sf : StartFresh)
    (hok : activeOk st = true) (hcontent : jsTrim content = "") :
    msgsOfId (sendMessageStart cfg st content sessionId sf).1
        (sendTarget st sessionId sf).id
      = some ((sendTarget st sessionId sf).messages ++ [userMessageOf content sf]) ∧
    (sendMessageStart cfg st content sessionId sf).2.payload.messages
      = ((sendTarget st sessionId sf).messages ++ [userMessageOf content sf]).map
          (fun m => ApiMessage.mk m.role m.content) ∧
    ∀ (outcome : FetchOutcome) (ff : FinishFresh), ∃ msgs,
      msgsOfId (sendMessage cfg st content sessionId sf outcome ff).1
          (sendTarget st sessionId sf).id = some msgs ∧
      userMessageOf content sf ∈ msgs :=
  sendMessage_user_message_effect cfg st content sessionId sf hok

/-- Witness for the amended C2 at a concrete input: content `" "`. -/
theorem c2_empty_content_same_behavior_witness :
    msgsOfId (sendMessageStart ⟨"gpt-3.5-turbo", 1000, 7/10⟩ initialStoreState " " none
        ⟨"s1", "d", "u1", 5⟩).1 (sendTarget initialStoreState none ⟨"s1", "d", "u1", 5⟩).id
      = some ((sendTarget initialStoreState none ⟨"s1", "d", "u1", 5⟩).messages
          ++ [userMessageOf " " ⟨"s1", "d", "u1", 5⟩]) :=
  (c2_empty_content_same_behavior ⟨"gpt-3.5-turbo", 1000, 7/10⟩ initialStoreState
    " " none ⟨"s1", "d", "u1", 5⟩ (by decide) (by decide)).1

/-- C3: every store operation preserves the invariant that the
active-session reference, when set, identifies (by id) a session present in
the session set; and deleting the active session leaves the reference at
the first remaining session of the set, or at none when the set becomes
empty. -/
theorem c3_ops_preserve_active_invariant (st : StoreState) (hok : activeOk st = true) :
    (∀ titleOpt sid dateStr now,
      activeOk (createNewSession st titleOpt sid dateStr now).1 = true) ∧
    (∀ i, activeOk (selectSession st i) = true) ∧
    (∀ i, activeOk (deleteSession st i) = true) ∧
    (∀ i now, activeOk (clearSession st i now) = true) ∧
    (∀ cfg content sessionId sf outcome ff,
      activeOk (sendMessage cfg st content sessionId sf outcome ff).1 = true) ∧
    (∀ i, idMatches st.currentSession i = true →
      (deleteSession st i).currentSession
        = (st.sessions.filter (fun s => !(s.id == i))).head?) := by
  refine ⟨?_, ?_, ?_, ?_, ?_, ?_⟩
  · intro titleOpt sid dateStr now
    simp [createNewSession, activeOk, hasId]
  · intro i
    cases hf : st.sessions.find? (fun s => s.id == i) with
    | some s =>
      have hid := id_of_find? hf
      have := hasId_of_find? hf
      simp only [selectSession, hf, activeOk]
      rw [hid]
      exact this
    | none => simpa [selectSession, hf, activeOk] using hok
  · intro i
    by_cases hc : idMatches st.currentSession i = true
    · simp only [deleteSession, hc, if_pos, activeOk]
      cases hl : st.sessions.filter (fun s => !(s.id == i)) with
      | nil => simp
      | cons h tl => simp [hasId]
    · simp only [deleteSession, hc, if_neg, Bool.not_eq_true, activeOk]
      cases hcur : st.currentSession with
      | none => simp
      | some c =>
        have hidne : (c.id == i) = false := by
          simpa [idMatches, hcur] using hc
        have hhas : hasId st.sessions c.id = true := by
          simpa [activeOk, hcur] using hok
        rcases List.any_eq_true.mp hhas with ⟨s, hs, hp⟩
        simp only [hasId, List.any_eq_true]
        refine ⟨s, List.mem_filter.mpr ⟨hs, ?_⟩, hp⟩
        have : s.id = c.id := by simpa using hp
        simp [this, hidne]
  · intro i now
    have hf : ∀ (s : ChatSession),
        ((fun s => if s.id == i then { s with messages := [], updatedAt := now }
          else s) s).id = s.id := by
      intro s
      by_cases h : s.id = i <;> simp [h]
    by_cases hc : idMatches st.currentSession i = true
    · cases hcur : st.currentSession with
      | none => simp [idMatches, hcur] at hc
      | some c =>
        have hc' : idMatches (some c) i = true := by rw [← hcur]; exact hc
        have hhas : hasId st.sessions c.id = true := by
          simpa [activeOk, hcur] using hok
        simp only [clearSession, hcur, hc', if_true, activeOk, Option.map_some']
        rw [show ({ c with messages := [] } : ChatSession).id = c.id from rfl,
          hasId_map_of_id_preserved _ hf]
        exact hhas
    · cases hcur : st.currentSession with
      | none => simp [clearSession, hcur, activeOk]
      | some c =>
        have hc' : idMatches (some c) i = false := by
          rw [← hcur]; exact (Bool.not_eq_true _).mp hc
        have hhas : hasId st.sessions c.id = true := by
          simpa [activeOk, hcur] using hok
        simp only [clearSession, hcur, hc', Bool.false_eq_true, if_false, activeOk]
        rw [hasId_map_of_id_preserved _ hf]
        exact hhas
  · intro cfg content sessionId sf outcome ff
    obtain ⟨_, _, h3, h4⟩ := sendMessageStart_spec cfg st content sessionId sf hok
    have hstart := activeOk_sendMessageStart cfg st content sessionId sf hok
    have hhas : hasId (sendMessageStart cfg st content sessionId sf).1.sessions
        (sendMessageStart cfg st content sessionId sf).2.updatedSession.id = true := by
      rw [h3]
      exact h4
    exact activeOk_sendMessageFinish _ _ outcome ff hstart hhas
  · intro i hc
    simp [deleteSession, hc]

/-- Witness for C3: delete the active session of a one-session store; the
reference moves to the head of the (empty) remaining list. -/
theorem c3_ops_preserve_active_invariant_witness :
    (deleteSession (createNewSession initialStoreState none "s1" "d" 0).1 "s1").currentSession
      = ((createNewSession initialStoreState none "s1" "d" 0).1.sessions.filter
          (fun s => !(s.id == "s1"))).head? :=
  (c3_ops_preserve_active_invariant (createNewSession initialStoreState none "s1" "d" 0).1
    (by decide)).2.2.2.2.2 "s1" (by decide)

/-- C4: two `sendMessage` calls in quick succession (both synchronous
phases run before either request settles).  The second start aborts the
first call's controller before issuing its own request, so at most one
request is live; in both settlement orders the session gains exactly one
assistant message (the second call's), and the superseded first call
returns null. -/
theorem c4_second_call_supersedes_first (cfg : Config) (st : StoreState)
    (i : String) (t : ChatSession) (c1 c2 m1 : String) (sf1 sf2 : StartFresh)
    (ff1 ff2 : FinishFresh) (data : OpenAIResponseData)
    (st1 st2 : StoreState) (p1 p2 : PendingRequest)
    (hok : activeOk st = true)
    (hfind : st.sessions.find? (fun s => s.id == i) = some t)
    (hr1 : sendMessageStart cfg st c1 (some i) sf1 = (st1, p1))
    (hr2 : sendMessageStart cfg st1 c2 (some i) sf2 = (st2, p2)) :
    p1.gen ∈ st2.abortedGens ∧
    st2.abortController = some p2.gen ∧
    p1.gen ≠ p2.gen ∧
    ((sendMessageFinish st2 p1 (.rejected "AbortError" m1) ff1).2 = none ∧
     (sendMessageFinish (sendMessageFinish st2 p1 (.rejected "AbortError" m1) ff1).1
        p2 (.ok data) ff2).2 = some (assistantMessageOf data ff2) ∧
     msgsOfId (sendMessageFinish (sendMessageFinish st2 p1 (.rejected "AbortError" m1) ff1).1
        p2 (.ok data) ff2).1 i
       = some (t.messages ++ [userMessageOf c1 sf1, userMessageOf c2 sf2,
           assistantMessageOf data ff2])) ∧
    ((sendMessageFinish st2 p2 (.ok data) ff2).2 = some (assistantMessageOf data ff2) ∧
     (sendMessageFinish (sendMessageFinish st2 p2 (.ok data) ff2).1
        p1 (.rejected "AbortError" m1) ff1).2 = none ∧
     msgsOfId (sendMessageFinish (sendMessageFinish st2 p2 (.ok data) ff2).1
        p1 (.rejected "AbortError" m1) ff1).1 i
       = some (t.messages ++ [userMessageOf c1 sf1, userMessageOf c2 sf2,
           assistantMessageOf data ff2])) ∧
    assistantCount (t.messages ++ [userMessageOf c1 sf1, userMessageOf c2 sf2,
        assistantMessageOf data ff2])
      = assistantCount t.messages + 1 := by
  have hti : t.id = i := id_of_find? hfind
  have htgt1 : sendTarget st (some i) sf1 = t := by
    simp [sendTarget, resolveTarget, hfind]
  obtain ⟨h11, _, h13, h14⟩ := sendMessageStart_spec cfg st c1 (some i) sf1 hok
  rw [hr1, htgt1] at h11 h13 h14
  rcases Option.map_eq_some'.mp h11 with ⟨f1, hf1, hf1m⟩
  rw [hti] at hf1
  have hok1 : activeOk st1 = true := by
    have := activeOk_sendMessageStart cfg st c1 (some i) sf1 hok
    rwa [hr1] at this
  have htgt2 : sendTarget st1 (some i) sf2 = f1 := by
    simp [sendTarget, resolveTarget, hf1]
  have hf1id : f1.id = i := id_of_find? hf1
  obtain ⟨h21, _, h23, h24⟩ := sendMessageStart_spec cfg st1 c2 (some i) sf2 hok1
  rw [hr2, htgt2] at h21 h23 h24
  have hgen1 : p1.gen = st.nextGen := by
    have := sendMessageStart_gen cfg st c1 (some i) sf1
    rwa [hr1] at this
  have hgen2 : p2.gen = st1.nextGen := by
    have := sendMessageStart_gen cfg st1 c2 (some i) sf2
    rwa [hr2] at this
  have hac1 : st1.abortController = some st.nextGen := by
    have := sendMessageStart_abortController cfg st c1 (some i) sf1
    rwa [hr1] at this
  have hac2 : st2.abortController = some st1.nextGen := by
    have := sendMessageStart_abortController cfg st1 c2 (some i) sf2
    rwa [hr2] at this
  have hng1 : st1.nextGen = st.nextGen + 1 := by
    have := sendMessageStart_nextGen cfg st c1 (some i) sf1
    rwa [hr1] at this
  have hagens : st2.abortedGens = st.nextGen :: st1.abortedGens := by
    have := sendMessageStart_abortedGens cfg st1 c2 (some i) sf2
    rw [hr2, hac1] at this
    exact this
  have hpid : p2.updatedSession.id = i := by rw [h23]; exact hf1id
  have hpmsgs : p2.updatedSession.messages
      = t.messages ++ [userMessageOf c1 sf1] ++ [userMessageOf c2 sf2] := by
    rw [h23]
    simp [hf1m]
  refine ⟨?_, ?_, ?_, ?_, ?_, ?_⟩
  · rw [hgen1, hagens]; exact List.mem_cons_self _ _
  · rw [hac2, hgen2]
  · rw [hgen1, hgen2, hng1]; omega
  · have habort := sendMessageFinish_abort st2 p1 m1 ff1
    have hhas : hasId (sendMessageFinish st2 p1 (.rejected "AbortError" m1) ff1).1.sessions
        p2.updatedSession.id = true := by
      rw [habort, hpid]
      rw [hf1id] at h24
      exact h24
    obtain ⟨hm, hret⟩ := sendMessageFinish_ok
      (sendMessageFinish st2 p1 (.rejected "AbortError" m1) ff1).1 p2 data ff2 hhas
    refine ⟨by rw [habort], hret, ?_⟩
    rw [hpid] at hm
    rw [hm, hpmsgs]
    simp
  · have hhas : hasId st2.sessions p2.updatedSession.id = true := by
      rw [hpid]; rw [hf1id] at h24; exact h24
    obtain ⟨hm, hret⟩ := sendMessageFinish_ok st2 p2 data ff2 hhas
    have habort := sendMessageFinish_abort
      (sendMessageFinish st2 p2 (.ok data) ff2).1 p1 m1 ff1
    refine ⟨hret, by rw [habort], ?_⟩
    rw [habort]
    rw [hpid] at hm
    have : msgsOfId ({ (sendMessageFinish st2 p2 (.ok data) ff2).1 with
        isLoading := false } : StoreState) i
        = msgsOfId (sendMessageFinish st2 p2 (.ok data) ff2).1 i := rfl
    rw [this, hm, hpmsgs]
    simp
  · simp [assistantCount, userMessageOf, assistantMessageOf]

/-- Witness for C4: two quick calls on the one-session witness store; the
superseded first call returns null. -/
theorem c4_second_call_supersedes_first_witness :
    (sendMessageFinish
        (sendMessageStart wCfg (sendMessageStart wCfg wStore "hola" (some "s1") wSf1).1
          "otra" (some "s1") wSf2).1
        (sendMessageStart wCfg wStore "hola" (some "s1") wSf1).2
        (.rejected "AbortError" "The user aborted a request.") wFf1).2 = none :=
  (c4_second_call_supersedes_first wCfg wStore "s1" ⟨"s1", "Chat d", [], 0, 0⟩
    "hola" "otra" "The user aborted a request." wSf1 wSf2 wFf1 wFf2 wData
    (sendMessageStart wCfg wStore "hola" (some "s1") wSf1).1
    (sendMessageStart wCfg (sendMessageStart wCfg wStore "hola" (some "s1") wSf1).1
      "otra" (some "s1") wSf2).1
    (sendMessageStart wCfg wStore "hola" (some "s1") wSf1).2
    (sendMessageStart wCfg (sendMessageStart wCfg wStore "hola" (some "s1") wSf1).1
      "otra" (some "s1") wSf2).2
    (by decide) (by decide) rfl rfl).2.2.2.1.1

/-- C5 counterexample: a failure with HTTP status 429 whose error body
carries its own message (here `"Rate limit reached"`, which does not
contain the substring `'429'`).  The appended assistant message and the
store-level error carry the body's message, not the rate-limit-specific
string — refuting "for every remote failure with HTTP status 429". -/
theorem c5_429_with_body_message_not_rate_limit_string :
    (sendMessage wCfg wStore "hola" (some "s1") wSf1
        (.httpError 429 "Too Many Requests" (some "Rate limit reached")) wFf1).1.error
      = some "Rate limit reached" ∧
    msgsOfId (sendMessage wCfg wStore "hola" (some "s1") wSf1
        (.httpError 429 "Too Many Requests" (some "Rate limit reached")) wFf1).1 "s1"
      = some [userMessageOf "hola" wSf1,
          ⟨"a1", .assistant, "Error: Rate limit reached", 3, none⟩] ∧
    (sendMessage wCfg wStore "hola" (some "s1") wSf1
        (.httpError 429 "Too Many Requests" (some "Rate limit reached")) wFf1).1.error
      ≠ some "Límite de rate excedido. Intenta nuevamente en unos momentos" ∧
    ("Error: Rate limit reached" : String)
      ≠ "Error: " ++ "Límite de rate excedido. Intenta nuevamente en unos momentos" := by
  refine ⟨by decide, by decide, by decide, by decide⟩

/-- C5 (amended): a 429 failure produces the rate-limit-specific string in
both the appended assistant message and the store-level error whenever the
synthesized error message contains `'429'` and does not contain
`'API key'` — in particular whenever the error body yields no message, so
the thrown message is `"HTTP 429: <statusText>"`.  When the body carries
its own message, that message is surfaced instead. -/
theorem c5_429_rate_limit_string (cfg : Config) (st : StoreState) (content : String)
    (sessionId : Option String) (sf : StartFresh) (ff : FinishFresh)
    (statusText : String) (body : Option String)
    (hok : activeOk st = true)
    (h429 : strContains (httpErrorText 429 statusText body) "429" = true)
    (hkey : strContains (httpErrorText 429 statusText body) "API key" = false) :
    (sendMessage cfg st content sessionId sf (.httpError 429 statusText body) ff).1.error
      = some "Límite de rate excedido. Intenta nuevamente en unos momentos" ∧
    msgsOfId (sendMessage cfg st content sessionId sf (.httpError 429 statusText body) ff).1
        (sendTarget st sessionId sf).id
      = some ((sendTarget st sessionId sf).messages ++
          [userMessageOf content sf,
           errorResponseMessageOf ⟨"Error", httpErrorText 429 statusText body⟩ ff]) ∧
    (errorResponseMessageOf ⟨"Error", httpErrorText 429 statusText body⟩ ff).content
      = "Error: " ++ "Límite de rate excedido. Intenta nuevamente en unos momentos" := by
  obtain ⟨h1, _, h3, h4⟩ := sendMessageStart_spec cfg st content sessionId sf hok
  have hid : (sendMessageStart cfg st content sessionId sf).2.updatedSession.id
      = (sendTarget st sessionId sf).id := by rw [h3]
  have hhas : hasId (sendMessageStart cfg st content sessionId sf).1.sessions
      (sendMessageStart cfg st content sessionId sf).2.updatedSession.id = true := by
    rw [hid]; exact h4
  obtain ⟨hm, herr, _⟩ := sendMessageFinish_httpError
    (sendMessageStart cfg st content sessionId sf).1
    (sendMessageStart cfg st content sessionId sf).2 429 statusText body ff hhas
  have hrate := handleApiError_429 ⟨"Error", httpErrorText 429 statusText body⟩ h429 hkey
  refine ⟨?_, ?_, ?_⟩
  · show (sendMessageFinish (sendMessageStart cfg st content sessionId sf).1
        (sendMessageStart cfg st content sessionId sf).2
        (.httpError 429 statusText body) ff).1.error = _
    rw [herr, hrate]
  · show msgsOfId (sendMessageFinish (sendMessageStart cfg st content sessionId sf).1
        (sendMessageStart cfg st content sessionId sf).2
        (.httpError 429 statusText body) ff).1 (sendTarget st sessionId sf).id = _
    rw [← hid, hm, h3]
    simp
  · simp [errorResponseMessageOf, hrate]

/-- Witness for the amended C5: empty error body, standard status text. -/
theorem c5_429_rate_limit_string_witness :
    (sendMessage wCfg wStore "hola" (some "s1") wSf1
        (.httpError 429 "Too Many Requests" none) wFf1).1.error
      = some "Límite de rate excedido. Intenta nuevamente en unos momentos" :=
  (c5_429_rate_limit_string wCfg wStore "hola" (some "s1") wSf1 wFf1
    "Too Many Requests" none (by decide) (by decide) (by decide)).1

/-- C9 counterexample: a 2xx response with an empty `choices` array.  The
code appends an assistant message with the placeholder `'No response'` and
leaves the store-level error state empty — refuting "records the error in
the store-level error state". -/
theorem c9_missing_completion_no_error_recorded :
    (sendMessage wCfg wStore "hola" (some "s1") wSf1
        (.ok ⟨[], some ⟨1, 2, 3⟩⟩) wFf1).1.error = none ∧
    msgsOfId (sendMessage wCfg wStore "hola" (some "s1") wSf1
        (.ok ⟨[], some ⟨1, 2, 3⟩⟩) wFf1).1 "s1"
      = some [userMessageOf "hola" wSf1,
          ⟨"a1", .assistant, "No response", 3, some 3⟩] ∧
    (sendMessage wCfg wStore "hola" (some "s1") wSf1
        (.ok ⟨[], some ⟨1, 2, 3⟩⟩) wFf1).2
      = some ⟨"a1", .assistant, "No response", 3, some 3⟩ := by
  refine ⟨by decide, by decide, by decide⟩

/-- C9 (amended): a 2xx response lacking `choices[0].message.content`
(empty `choices`, or an empty content string) is not surfaced as an error:
`sendMessage` appends an assistant message with the placeholder content
`'No response'` (still carrying `usage.total_tokens` when present), leaves
the store-level error state cleared, and returns that message.  Classified
error strings arise only from non-2xx responses and rejected fetches. -/
theorem c9_missing_completion_placeholder (cfg : Config) (st : StoreState)
    (content : String) (sessionId : Option String) (sf : StartFresh)
    (ff : FinishFresh) (data : OpenAIResponseData)
    (hok : activeOk st = true)
    (hlack : (data.choices.head?.map fun c => c.message.content) = none ∨
             (data.choices.head?.map fun c => c.message.content) = some "") :
    (assistantMessageOf data ff).content = "No response" ∧
    (assistantMessageOf data ff).tokens = data.usage.map Usage.total_tokens ∧
    msgsOfId (sendMessage cfg st content sessionId sf (.ok data) ff).1
        (sendTarget st sessionId sf).id
      = some ((sendTarget st sessionId sf).messages ++
          [userMessageOf content sf, assistantMessageOf data ff]) ∧
    (sendMessage cfg st content sessionId sf (.ok data) ff).1.error = none ∧
    (sendMessage cfg st content sessionId sf (.ok data) ff).2
      = some (assistantMessageOf data ff) := by
  obtain ⟨h1, _, h3, h4⟩ := sendMessageStart_spec cfg st content sessionId sf hok
  have hid : (sendMessageStart cfg st content sessionId sf).2.updatedSession.id
      = (sendTarget st sessionId sf).id := by rw [h3]
  have hhas : hasId (sendMessageStart cfg st content sessionId sf).1.sessions
      (sendMessageStart cfg st content sessionId sf).2.updatedSession.id = true := by
    rw [hid]; exact h4
  obtain ⟨hm, hret⟩ := sendMessageFinish_ok
    (sendMessageStart cfg st content sessionId sf).1
    (sendMessageStart cfg st content sessionId sf).2 data ff hhas
  refine ⟨?_, rfl, ?_, ?_, hret⟩
  · rcases hlack with h | h <;> simp [assistantMessageOf, jsOrStr, h]
  · show msgsOfId (sendMessageFinish (sendMessageStart cfg st content sessionId sf).1
        (sendMessageStart cfg st content sessionId sf).2 (.ok data) ff).1
        (sendTarget st sessionId sf).id = _
    rw [← hid, hm, h3]
    simp
  · show (sendMessageFinish (sendMessageStart cfg st content sessionId sf).1
        (sendMessageStart cfg st content sessionId sf).2 (.ok data) ff).1.error = none
    rw [sendMessageFinish_ok_error, sendMessageStart_error]

/-- Witness for the amended C9: empty `choices`, usage present. -/
theorem c9_missing_completion_placeholder_witness :
    (sendMessage wCfg wStore "hola" (some "s1") wSf1
        (.ok ⟨[], some ⟨1, 2, 3⟩⟩) wFf1).1.error = none :=
  (c9_missing_completion_placeholder wCfg wStore "hola" (some "s1") wSf1 wFf1
    ⟨[], some ⟨1, 2, 3⟩⟩ (by decide) (Or.inl (by decide))).2.2.2.1

/-- C6: corrupted (unparseable) stored data, like missing data, leaves
store initialization with an empty session set and no error (the load is a
total function returning a state); valid stored data — the serialization of
any session list — is deserialized back to exactly those sessions, every
session and message timestamp reconstructed from its serialized form, with
the most recent session selected. -/
theorem c6_load_recovers_and_reconstructs :
    loadSessionsFromStorage .corrupt initialStoreState = initialStoreState ∧
    loadSessionsFromStorage .missing initialStoreState = initialStoreState ∧
    ∀ ss : List ChatSession,
      loadSessionsFromStorage (.parsed (encodeSessionsJson ss)) initialStoreState
        = { initialStoreState with sessions := ss, currentSession := ss.head? } := by
  refine ⟨rfl, rfl, ?_⟩
  intro ss
  rw [loadSessionsFromStorage]
  rw [reviveSessions_encodeSessions]
  cases ss with
  | nil => rfl
  | cons a l => simp

/-- C7: exporting a session present in the set in the structured format
yields exactly its serialization, and the storage deserialization step
applied to that serialization reproduces the session — in particular the
same ordered message list with the same ids, roles, contents and
timestamps; exporting an id not present returns empty output in either
format. -/
theorem c7_export_json_roundtrip (st : StoreState) (sessionId : String) :
    (∀ t, st.sessions.find? (fun s => s.id == sessionId) = some t →
      exportSession st sessionId .json = .jsonDoc (encodeSessionJson t) ∧
      reviveSession (encodeSessionJson t) = some t) ∧
    (st.sessions.find? (fun s => s.id == sessionId) = none →
      ∀ format, exportSession st sessionId format = .empty) := by
  constructor
  · intro t hf
    exact ⟨by simp [exportSession, hf], reviveSession_encodeSession t⟩
  · intro hf format
    simp [exportSession, hf]

/-- Witness for C7 on the one-session witness store. -/
theorem c7_export_json_roundtrip_witness :
    exportSession wStore "s1" .json
        = .jsonDoc (encodeSessionJson ⟨"s1", "Chat d", [], 0, 0⟩) ∧
    reviveSession (encodeSessionJson ⟨"s1", "Chat d", [], 0, 0⟩)
        = some ⟨"s1", "Chat d", [], 0, 0⟩ :=
  (c7_export_json_roundtrip wStore "s1").1 ⟨"s1", "Chat d", [], 0, 0⟩ (by decide)

theorem sessionTokens_eq_assistantTokens (s : ChatSession)
    (h : s.messages.all
      (fun m => decide (m.role = Role.assistant) || decide (m.tokens = none)) = true) :
    sessionTokens s = assistantTokens s := by
  rw [sessionTokens, assistantTokens]
  have main : ∀ (l : List ChatMessage),
      l.all (fun m => decide (m.role = Role.assistant) || decide (m.tokens = none))
        = true →
      ∀ acc, l.foldl (fun acc m => acc + m.tokens.getD 0) acc
        = l.foldl
            (fun acc m => acc + (if m.role = Role.assistant then m.tokens.getD 0 else 0))
            acc := by
    intro l hl
    induction l with
    | nil => intro acc; rfl
    | cons m t ih =>
      intro acc
      simp only [List.all_cons, Bool.and_eq_true, Bool.or_eq_true,
        decide_eq_true_eq] at hl
      obtain ⟨hm, ht⟩ := hl
      have hstep : m.tokens.getD 0
          = (if m.role = Role.assistant then m.tokens.getD 0 else 0) := by
        rcases hm with h' | h'
        · simp [h']
        · by_cases hr : m.role = Role.assistant <;> simp [hr, h']
      simp only [List.foldl_cons]
      rw [← hstep]
      exact ih (by simpa [List.all_eq_true] using ht) (acc + m.tokens.getD 0)
  exact main s.messages h 0

theorem foldl_sessionTokens_congr (l : List ChatSession)
    (h : ∀ s ∈ l, sessionTokens s = assistantTokens s) :
    ∀ acc, l.foldl (fun total s => total + sessionTokens s) acc
      = l.foldl (fun total s => total + assistantTokens s) acc := by
  induction l with
  | nil => intro acc; rfl
  | cons a t ih =>
    intro acc
    simp only [List.foldl_cons]
    rw [h a (by simp)]
    exact ih (fun s hs => h s (by simp [hs])) _

/-- C8: `getTotalTokensUsed` sums the optional token counts (missing as
zero) over the selected session's messages, or all sessions' messages; in
every state whose token counts sit only on assistant messages — which is
all the store produces — this equals the assistant-message token sum.  In
the concrete two-exchange scenario whose responses report
`usage.total_tokens` 42 and 58, the session total is exactly 100 (42 after
the first exchange). -/
theorem c8_total_tokens_assistant_sum (st : StoreState) (sessionId : Option String)
    (honly : onlyAssistantTokens st = true) :
    getTotalTokensUsed st sessionId
      = ((match sessionId with
          | some i => st.sessions.filter (fun (s : ChatSession) => s.id == i)
          | none => st.sessions) : List ChatSession).foldl
            (fun total s => total + assistantTokens s) 0 ∧
    getTotalTokensUsed
        (sendMessage wCfg wStore "q1" (some "s1") wSf1 (.ok wData) wFf1).1
        (some "s1") = 42 ∧
    getTotalTokensUsed
        (sendMessage wCfg
          (sendMessage wCfg wStore "q1" (some "s1") wSf1 (.ok wData) wFf1).1
          "q2" (some "s1") wSf2 (.ok wData2) wFf2).1
        (some "s1") = 100 := by
  refine ⟨?_, by decide, by decide⟩
  have hall : ∀ s ∈ st.sessions, sessionTokens s = assistantTokens s := by
    intro s hs
    exact sessionTokens_eq_assistantTokens s
      (List.all_eq_true.mp honly s hs)
  cases sessionId with
  | some i =>
    rw [getTotalTokensUsed]
    exact foldl_sessionTokens_congr _
      (fun s hs => hall s (List.mem_of_mem_filter hs)) 0
  | none =>
    rw [getTotalTokensUsed]
    exact foldl_sessionTokens_congr _ hall 0

/-- Witness for C8 at the concrete two-exchange state. -/
theorem c8_total_tokens_assistant_sum_witness :
    getTotalTokensUsed
        (sendMessage wCfg
          (sendMessage wCfg wStore "q1" (some "s1") wSf1 (.ok wData) wFf1).1
          "q2" (some "s1") wSf2 (.ok wData2) wFf2).1
        (some "s1")
      = ((sendMessage wCfg
            (sendMessage wCfg wStore "q1" (some "s1") wSf1 (.ok wData) wFf1).1
            "q2" (some "s1") wSf2 (.ok wData2) wFf2).1.sessions.filter
          (fun s => s.id == "s1")).foldl (fun total s => total + assistantTokens s) 0 :=
  (c8_total_tokens_assistant_sum
    (sendMessage wCfg
      (sendMessage wCfg wStore "q1" (some "s1") wSf1 (.ok wData) wFf1).1
      "q2" (some "s1") wSf2 (.ok wData2) wFf2).1
    (some "s1") (by decide)).1

/-- C10: a first `setItem` failing with `QuotaExceededError` makes the
store keep only the 10 most recent sessions in memory (the list is
most-recent-first) and retry exactly once (two write attempts in all, for
any first outcome at most two); the retry's outcome only decides what the
slot holds — a second failure is swallowed, the truncated in-memory list
stays, and the operation always returns normally to the caller with
everything but the session list untouched. -/
theorem c10_save_quota_truncates_and_retries_once (st : StoreState)
    (slot : StoredText) (o2 : WriteOutcome) :
    (saveSessionsToStorage st slot .quotaExceeded o2).state
      = { st with sessions := st.sessions.take 10 } ∧
    (saveSessionsToStorage st slot .quotaExceeded o2).attempts = 2 ∧
    (saveSessionsToStorage st slot .quotaExceeded o2).storage
      = (if o2 = .ok then .parsed (encodeSessionsJson (st.sessions.take 10)) else slot) ∧
    ∀ o1, (saveSessionsToStorage st slot o1 o2).attempts ≤ 2 := by
  cases o2 <;> refine ⟨rfl, rfl, rfl, ?_⟩ <;> intro o1 <;>
    cases o1 <;> simp [saveSessionsToStorage]

